import Mathlib

/-!
Verification of the approach-detection state machine of `detect_events.py`.

The script reads a TSV export of mocap marker trajectories, asks the user for
a hand marker and an ordered list of motion nodes, and scans the data rows
with a small state machine: per valid frame it computes the ratio of the
hand-to-target and hand-to-previous-node Euclidean distances, debounces the
crossings of `APPROACH_THRESHOLD`, records the frame of closest approach at
the first and last node of the sequence, and emits one event per full
traversal.

Modelling conventions:
* Python floats are modelled by exact rationals (`ℚ`).  The script compares
  `math.sqrt`-distances only through the order relation and through `min`,
  and `sqrt` is strictly monotone on nonnegative reals, so every comparison
  is carried out here on squared distances: `d_t / d_p ≤ 0.35` (with
  `d_p > 0`) holds iff `d_t² / d_p² ≤ 0.35²`, and `min` over stored squared
  distances selects the same sample as `min` over the distances themselves.
* Python exceptions (`KeyError`, `IndexError`, `ZeroDivisionError`, the
  `ValueError` of `min([])`) are modelled with `Except String`; the script
  installs no handler around the frame loop, so an error aborts the run.
* Mutable loop variables of the `__main__` body are gathered in `LoopState`;
  one iteration of `for row in reader` is `stepFrame` and the whole loop is
  `runRows`.
-/

/-- Global constant `APPROACH_THRESHOLD = 0.35` of the script (exact value
of the decimal literal). -/
def APPROACH_THRESHOLD : ℚ := 35 / 100

/-- Global constant `APPROACH_BUFFER = 5` of the script. -/
def APPROACH_BUFFER : ℤ := 5

/-- The `Point` class of the script: three coordinates, component-wise
equality (`__eq__`). -/
structure Point where
  x : ℚ
  y : ℚ
  z : ℚ
deriving DecidableEq, Repr

/-- Square of `Point.distanceTo`: the script computes
`math.sqrt((x1-x2)**2 + (y1-y2)**2 + (z1-z2)**2)`; we keep the radicand,
see the module comment. -/
def distSq (p q : Point) : ℚ :=
  (p.x - q.x) ^ 2 + (p.y - q.y) ^ 2 + (p.z - q.z) ^ 2

/-- The sentinel `zero_point = Point(0, 0, 0)` marking a dropped sample. -/
def zeroPoint : Point := ⟨0, 0, 0⟩

/-- Python list indexing `xs[i]`: negative indices count from the end,
out-of-range indices raise `IndexError`. -/
def pyGet {α : Type} (xs : List α) (i : ℤ) : Except String α :=
  let j := if i < 0 then i + xs.length else i
  if 0 ≤ j then
    match xs.get? j.toNat with
    | some a => .ok a
    | none => .error "IndexError"
  else .error "IndexError"

/-- Python dict lookup `d[k]` for the `marker_names` dictionary, modelled as
an association list in insertion order; a missing key raises `KeyError`. -/
def dictGet (d : List (String × ℕ)) (k : String) : Except String ℕ :=
  match d.find? (fun p => p.1 = k) with
  | some p => .ok p.2
  | none => .error "KeyError"

/-- Reading one marker position from a data row:
`Point(float(row[col]), float(row[col+1]), float(row[col+2]))`.  Data rows
are modelled as already-parsed rationals; a too-short row raises
`IndexError`. -/
def rowPoint (row : List ℚ) (col : ℕ) : Except String Point :=
  match row.get? col, row.get? (col + 1), row.get? (col + 2) with
  | some a, some b, some c => .ok ⟨a, b, c⟩
  | _, _, _ => .error "IndexError"

/-- Strict lexicographic order on the `(target_distance, current_frame)`
pairs stored in `frame_store`: Python tuple comparison. -/
def pairLt (a b : ℚ × ℤ) : Bool :=
  decide (a.1 < b.1 ∨ (a.1 = b.1 ∧ a.2 < b.2))

/-- Reflexive lexicographic order on stored pairs, used to state minimality
of the sample picked by `min(frame_store)`. -/
def PairLe (a b : ℚ × ℤ) : Prop :=
  a.1 < b.1 ∨ (a.1 = b.1 ∧ a.2 ≤ b.2)

/-- Python `min` on a list of pairs: left fold keeping the first strictly
smallest element; `min([])` raises `ValueError`. -/
def pyMin (xs : List (ℚ × ℤ)) : Except String (ℚ × ℤ) :=
  match xs with
  | [] => .error "ValueError"
  | x :: rest => .ok (rest.foldl (fun m y => if pairLt y m then y else m) x)

/-- Round-half-to-even on a rational, the rounding rule of Python `round`
(the script only rounds exact values, so the float representation error of
`round` is not modelled). -/
def roundHalfEven (q : ℚ) : ℤ :=
  if q - ⌊q⌋ < 1 / 2 then ⌊q⌋
  else if q - ⌊q⌋ > 1 / 2 then ⌊q⌋ + 1
  else if ⌊q⌋ % 2 = 0 then ⌊q⌋ else ⌊q⌋ + 1

/-- Python `round(x, 2)`: round to two decimal places, halves to even. -/
def pyRound2 (q : ℚ) : ℚ :=
  (roundHalfEven (q * 100) : ℚ) / 100

/-- One event row `[event_num, motion_start, motion_end, round(...)]` as
appended to `events` by the script. -/
structure Event where
  num : ℤ
  start_frame : ℤ
  end_frame : ℤ
  duration : ℚ
deriving DecidableEq, Repr

/-- The mutable variables of the frame loop (lines 130–141 of the script),
together with the `target_node` / `previous_node` name variables. -/
structure LoopState where
  current_frame : ℤ
  bad_frames : ℤ
  event_num : ℤ
  motion_start : ℤ
  motion_end : ℤ
  tracking : Bool
  buffer : ℤ
  frame_store : List (ℚ × ℤ)
  events : List Event
  target_idx : ℕ
  target_node : String
  previous_node : String
deriving DecidableEq, Repr

/-- The per-run inputs of the frame loop: the marker registry, the
user-chosen hand marker and node sequence, and the header frequency. -/
structure Config where
  marker_names : List (String × ℕ)
  hand_marker : String
  motion_nodes : List String
  frequency : ℤ
deriving DecidableEq, Repr

/-- Lines 148–180 of the script: resolve the hand, target and previous
marker positions of a row, with the three interleaved sentinel checks.
`ok none` means the frame is invalid (some position equals the sentinel);
`ok (some (dtSq, dpSq))` returns the squared target and previous
distances. -/
def frameObs (cfg : Config) (st : LoopState) (row : List ℚ) :
    Except String (Option (ℚ × ℚ)) :=
  match dictGet cfg.marker_names cfg.hand_marker with
  | .error e => .error e
  | .ok hand_off =>
    match rowPoint row (hand_off * 3) with
    | .error e => .error e
    | .ok hand_point =>
      if hand_point = zeroPoint then .ok none else
      match dictGet cfg.marker_names st.target_node with
      | .error e => .error e
      | .ok target_off =>
        match rowPoint row (target_off * 3) with
        | .error e => .error e
        | .ok target_point =>
          if target_point = zeroPoint then .ok none else
          match dictGet cfg.marker_names st.previous_node with
          | .error e => .error e
          | .ok previous_off =>
            match rowPoint row (previous_off * 3) with
            | .error e => .error e
            | .ok previous_point =>
              if previous_point = zeroPoint then .ok none else
              .ok (some (distSq hand_point target_point,
                         distSq hand_point previous_point))

/-- Lines 219–222 of the script: rotate the target index modulo the node
count and re-derive `target_node` and `previous_node` by Python indexing
(`motion_nodes[target_idx]`, `motion_nodes[target_idx - 1]`).  Python `%`
by zero raises `ZeroDivisionError`. -/
def rotateState (cfg : Config) (st : LoopState) : Except String LoopState :=
  if cfg.motion_nodes.length = 0 then .error "ZeroDivisionError" else
  match pyGet cfg.motion_nodes (Int.ofNat ((st.target_idx + 1) % cfg.motion_nodes.length)),
        pyGet cfg.motion_nodes (Int.ofNat ((st.target_idx + 1) % cfg.motion_nodes.length) - 1) with
  | .ok t, .ok p =>
    .ok { st with target_idx := (st.target_idx + 1) % cfg.motion_nodes.length,
                  target_node := t, previous_node := p }
  | .error e, _ => .error e
  | .ok _, .error e => .error e

/-- Lines 192–222 of the script: the confirmed-departure branch
(`tracking and buffer <= 0`).  At the first node `motion_start` is set to
the frame of the minimal stored sample; at the last node `motion_end` is
set likewise and an event row is appended; in every case tracking is
switched off, the store cleared and the nodes rotated.  `st` here already
carries the decremented buffer. -/
def departure (cfg : Config) (st : LoopState) : Except String LoopState :=
  if st.target_idx = 0 then
    match pyMin st.frame_store with
    | .error e => .error e
    | .ok m =>
      rotateState cfg
        { st with motion_start := m.2, tracking := false, frame_store := [] }
  else if (st.target_idx : ℤ) = (cfg.motion_nodes.length : ℤ) - 1 then
    match pyMin st.frame_store with
    | .error e => .error e
    | .ok m =>
      if cfg.frequency = 0 then .error "ZeroDivisionError" else
      rotateState cfg
        { st with
          events := st.events ++
            [{ num := st.event_num
               start_frame := st.motion_start
               end_frame := m.2
               duration :=
                 pyRound2 (((m.2 : ℚ) - (st.motion_start : ℚ)) / (cfg.frequency : ℚ)) }]
          event_num := st.event_num + 1
          motion_start := -1
          motion_end := -1
          tracking := false
          frame_store := [] }
  else
    rotateState cfg { st with tracking := false, frame_store := [] }

/-- Lines 183–225 of the script: the tracking update of one valid frame.
`obs.1` and `obs.2` are the squared target and previous distances; the
ratio test `obs.1 / obs.2 ≤ APPROACH_THRESHOLD ^ 2` is the squared form of
`target_distance / previous_distance <= APPROACH_THRESHOLD` (see the module
comment).  The single `buffer -= 1` of line 183 is inlined into every
branch outcome here; the entry branch overwrites it with `APPROACH_BUFFER`
exactly as the assignment on line 189 does, so entry into the approach area
is instantaneous, departure is checked against the decremented buffer, and
`current_frame` is bumped at the end of the iteration. -/
def trackStep (cfg : Config) (st : LoopState) (obs : ℚ × ℚ) :
    Except String LoopState :=
  if obs.1 / obs.2 ≤ APPROACH_THRESHOLD ^ 2 then
    if st.tracking then
      .ok { st with buffer := st.buffer - 1,
                    frame_store := st.frame_store ++ [(obs.1, st.current_frame)],
                    current_frame := st.current_frame + 1 }
    else
      .ok { st with tracking := true, buffer := APPROACH_BUFFER,
                    frame_store := st.frame_store ++ [(obs.1, st.current_frame)],
                    current_frame := st.current_frame + 1 }
  else
    if st.tracking ∧ st.buffer - 1 ≤ 0 then
      match departure cfg { st with buffer := st.buffer - 1 } with
      | .error e => .error e
      | .ok st1 => .ok { st1 with current_frame := st1.current_frame + 1 }
    else
      .ok { st with buffer := st.buffer - 1, current_frame := st.current_frame + 1 }

/-- One iteration of `for row in reader` (lines 147–225): an invalid frame
only bumps `bad_frames` (the `continue` skips the rest of the body,
including the buffer decrement and the `current_frame` bump); a zero
previous-node distance raises `ZeroDivisionError` in the ratio; otherwise
the tracking update runs. -/
def stepFrame (cfg : Config) (st : LoopState) (row : List ℚ) :
    Except String LoopState :=
  match frameObs cfg st row with
  | .error e => .error e
  | .ok none => .ok { st with bad_frames := st.bad_frames + 1 }
  | .ok (some obs) =>
    if obs.2 = 0 then .error "ZeroDivisionError" else trackStep cfg st obs

/-- The whole frame loop over the data rows; an uncaught exception aborts
the run (the script catches only `FileNotFoundError` and, around the output
write, `IOError`). -/
def runRows (cfg : Config) : LoopState → List (List ℚ) → Except String LoopState
  | st, [] => .ok st
  | st, row :: rest =>
    match stepFrame cfg st row with
    | .error e => .error e
    | .ok st' => runRows cfg st' rest

/-- Lines 130–144 of the script: the initial loop state;
`target_node = motion_nodes[0]`, `previous_node = motion_nodes[-1]`. -/
def initState (cfg : Config) : Except String LoopState :=
  match pyGet cfg.motion_nodes 0, pyGet cfg.motion_nodes (-1) with
  | .ok t, .ok p =>
    .ok { current_frame := 1
          bad_frames := 0
          event_num := 1
          motion_start := -1
          motion_end := -1
          tracking := false
          buffer := 0
          frame_store := []
          events := []
          target_idx := 0
          target_node := t
          previous_node := p }
  | .error e, _ => .error e
  | .ok _, .error e => .error e

/-- Initialization followed by the frame loop. -/
def runEvents (cfg : Config) (rows : List (List ℚ)) : Except String LoopState :=
  match initState cfg with
  | .error e => .error e
  | .ok st => runRows cfg st rows

/-- Python `int(s)` as used on the header values: optional sign followed by
decimal digits, surrounding whitespace stripped; anything else raises
`ValueError`. -/
def pyInt (s : String) : Except String ℤ :=
  let digitsVal : List Char → Except String ℤ := fun cs =>
    if cs ≠ [] ∧ cs.all Char.isDigit then
      .ok ((cs.foldl (fun a c => a * 10 + (c.toNat - 48)) 0 : ℕ) : ℤ)
    else .error "ValueError"
  match s.trim.data with
  | '-' :: rest =>
    match digitsVal rest with
    | .ok n => .ok (-n)
    | .error e => .error e
  | '+' :: rest => digitsVal rest
  | cs => digitsVal cs

/-- The header variables of the script: `frame_count = 0`, `frequency = 1`,
`marker_names = {}` before the header rows are read (lines 50–52). -/
structure HeaderState where
  frame_count : ℤ
  frequency : ℤ
  marker_names : List (String × ℕ)
deriving DecidableEq, Repr

/-- The initial header state of lines 50–52. -/
def initHeader : HeaderState := { frame_count := 0, frequency := 1, marker_names := [] }

/-- Membership test `name in marker_names` on the association list. -/
def dictContains (d : List (String × ℕ)) (k : String) : Bool :=
  d.any (fun p => p.1 = k)

/-- The suffixing `while` loop of lines 81–83: try `base`, `base_1`,
`base_2`, … until the name is not yet registered.  The fuel argument bounds
the loop; `d.length + 1` attempts always suffice because each failed
attempt matches a distinct existing key. -/
def freshNameFrom (d : List (String × ℕ)) (base : String) :
    ℕ → ℕ → String
  | 0, suffix => base ++ "_" ++ toString suffix
  | fuel + 1, suffix =>
    let name := if suffix = 0 then base else base ++ "_" ++ toString suffix
    if dictContains d name then freshNameFrom d base fuel (suffix + 1) else name

/-- Resolve one header marker name to a fresh registry key. -/
def freshName (d : List (String × ℕ)) (base : String) : String :=
  freshNameFrom d base (d.length + 1) 0

/-- Lines 75–84: register the names of a `MARKER_NAMES` row; the entry at
header column `idx` (1-based) gets offset `idx - 1`, ambiguous names get
numeric suffixes. -/
def addMarkers (row : List String) (d : List (String × ℕ)) :
    List (String × ℕ) :=
  (row.drop 1).enum.foldl
    (fun d p => d ++ [(freshName d p.2, p.1)]) d

/-- The header loop of lines 63–85: scan rows for the `NO_OF_FRAMES`,
`FREQUENCY` and `MARKER_NAMES` tags; the `MARKER_NAMES` row registers the
markers and `break`s, leaving the remaining rows for the frame loop.
`row[0]` and `row[1]` raise `IndexError` on short rows. -/
def parseHeaderRows :
    List (List String) → HeaderState → Except String (HeaderState × List (List String))
  | [], hs => .ok (hs, [])
  | row :: rest, hs =>
    match row.head? with
    | none => .error "IndexError"
    | some tag =>
      if tag = "NO_OF_FRAMES" then
        match row.get? 1 with
        | none => .error "IndexError"
        | some v =>
          match pyInt v with
          | .error e => .error e
          | .ok n => parseHeaderRows rest { hs with frame_count := n }
      else if tag = "FREQUENCY" then
        match row.get? 1 with
        | none => .error "IndexError"
        | some v =>
          match pyInt v with
          | .error e => .error e
          | .ok n => parseHeaderRows rest { hs with frequency := n }
      else if tag = "MARKER_NAMES" then
        .ok ({ hs with marker_names := addMarkers row hs.marker_names }, rest)
      else parseHeaderRows rest hs

/-- Lines 258–261 of the script: the end-of-run warning.  When frames were
skipped it computes `round((bad_frames / frame_count) * 100, 2)` with the
advisory header `frame_count`; Python division by zero raises
`ZeroDivisionError`. -/
def skippedWarning (bad_frames frame_count : ℤ) : Except String (Option ℚ) :=
  if bad_frames > 0 then
    if frame_count = 0 then .error "ZeroDivisionError"
    else .ok (some (pyRound2 (((bad_frames : ℚ) / (frame_count : ℚ)) * 100)))
  else .ok none

/-- A three-marker registry for concrete runs: hand marker `H` and two
motion nodes `A`, `B` with positions at row offsets 0, 1, 2. -/
def demoCfg : Config :=
  { marker_names := [("H", 0), ("A", 1), ("B", 2)]
    hand_marker := "H"
    motion_nodes := ["A", "B"]
    frequency := 1 }

/-- A data row with the hand next to node `A = (10,0,0)`;
`B = (20,0,0)`. -/
def rowNearA : List ℚ := [10, 1, 0, 10, 0, 0, 20, 0, 0]

/-- A data row with the hand next to node `B`. -/
def rowNearB : List ℚ := [20, 1, 0, 10, 0, 0, 20, 0, 0]

/-- A data row whose hand position is the sentinel `(0,0,0)`. -/
def rowBadHand : List ℚ := [0, 0, 0, 10, 0, 0, 20, 0, 0]


/-! ## Order lemmas for the stored pairs and `pyMin` -/

theorem pairLe_refl (a : ℚ × ℤ) : PairLe a a := Or.inr ⟨rfl, le_refl _⟩

theorem pairLe_trans {a b c : ℚ × ℤ} (h1 : PairLe a b) (h2 : PairLe b c) :
    PairLe a c := by
  rcases h1 with h1 | ⟨e1, l1⟩ <;> rcases h2 with h2 | ⟨e2, l2⟩
  · exact Or.inl (lt_trans h1 h2)
  · exact Or.inl (e2 ▸ h1)
  · exact Or.inl (e1 ▸ h2)
  · exact Or.inr ⟨e1.trans e2, le_trans l1 l2⟩

theorem pairLt_le {a b : ℚ × ℤ} (h : pairLt a b = true) : PairLe a b := by
  unfold pairLt at h
  rw [decide_eq_true_eq] at h
  rcases h with h | ⟨e, l⟩
  · exact Or.inl h
  · exact Or.inr ⟨e, le_of_lt l⟩

theorem not_pairLt_le {a b : ℚ × ℤ} (h : ¬ pairLt a b = true) : PairLe b a := by
  unfold pairLt at h
  rw [decide_eq_true_eq] at h
  rcases lt_trichotomy b.1 a.1 with hlt | heq | hgt
  · exact Or.inl hlt
  · refine Or.inr ⟨heq, ?_⟩
    by_contra hc
    exact h (Or.inr ⟨heq.symm, by omega⟩)
  · exact absurd (Or.inl hgt) h

/-- The fold inside `pyMin` returns its seed or a list element. -/
theorem pyMin_fold_mem (rest : List (ℚ × ℤ)) :
    ∀ x, rest.foldl (fun m y => if pairLt y m then y else m) x = x ∨
      rest.foldl (fun m y => if pairLt y m then y else m) x ∈ rest := by
  induction rest with
  | nil => intro x; exact Or.inl rfl
  | cons y ys ih =>
    intro x
    simp only [List.foldl_cons]
    rcases ih (if pairLt y x then y else x) with h | h
    · rw [h]
      by_cases hc : pairLt y x = true
      · simp only [hc, if_true]
        exact Or.inr (List.mem_cons_self _ _)
      · simp only [hc, if_false]
        exact Or.inl rfl
    · exact Or.inr (List.mem_cons_of_mem _ h)

/-- The fold inside `pyMin` is a lower bound of its seed and the list. -/
theorem pyMin_fold_le (rest : List (ℚ × ℤ)) :
    ∀ x, PairLe (rest.foldl (fun m y => if pairLt y m then y else m) x) x ∧
      ∀ p ∈ rest, PairLe (rest.foldl (fun m y => if pairLt y m then y else m) x) p := by
  induction rest with
  | nil => intro x; exact ⟨pairLe_refl x, by simp⟩
  | cons y ys ih =>
    intro x
    simp only [List.foldl_cons]
    obtain ⟨h1, h2⟩ := ih (if pairLt y x then y else x)
    by_cases hc : pairLt y x = true
    · simp only [hc, if_true] at h1 h2 ⊢
      refine ⟨pairLe_trans h1 (pairLt_le hc), ?_⟩
      intro p hp
      rcases List.mem_cons.mp hp with rfl | hp
      · exact h1
      · exact h2 p hp
    · simp only [hc, if_false] at h1 h2 ⊢
      refine ⟨h1, ?_⟩
      intro p hp
      rcases List.mem_cons.mp hp with rfl | hp
      · exact pairLe_trans h1 (not_pairLt_le hc)
      · exact h2 p hp

/-- `min(frame_store)` returns a stored sample that is lexicographically
least: minimal distance, ties broken by the earliest frame. -/
theorem pyMin_spec {xs : List (ℚ × ℤ)} {m : ℚ × ℤ} (h : pyMin xs = .ok m) :
    m ∈ xs ∧ ∀ p ∈ xs, PairLe m p := by
  match xs with
  | [] => simp [pyMin] at h
  | x :: rest =>
    simp only [pyMin, Except.ok.injEq] at h
    subst h
    constructor
    · rcases pyMin_fold_mem rest x with h | h
      · rw [h]; exact List.mem_cons_self _ _
      · exact List.mem_cons_of_mem _ h
    · intro p hp
      obtain ⟨h1, h2⟩ := pyMin_fold_le rest x
      rcases List.mem_cons.mp hp with rfl | hp
      · exact h1
      · exact h2 p hp

/-- `pyMin` succeeds exactly on nonempty stores. -/
theorem pyMin_ne_error {xs : List (ℚ × ℤ)} (h : xs ≠ []) :
    ∃ m, pyMin xs = .ok m := by
  match xs with
  | [] => exact absurd rfl h
  | x :: rest => exact ⟨_, rfl⟩

/-! ## Projection lemmas for the rotation and the step -/

/-- Successful rotation: the target index advances by one modulo the node
count, the previous node is read at Python index `target_idx - 1`, and all
other state components are untouched. -/
theorem rotateState_ok {cfg : Config} {st st' : LoopState}
    (h : rotateState cfg st = .ok st') :
    st'.target_idx = (st.target_idx + 1) % cfg.motion_nodes.length ∧
    pyGet cfg.motion_nodes (Int.ofNat ((st.target_idx + 1) % cfg.motion_nodes.length)) =
      .ok st'.target_node ∧
    pyGet cfg.motion_nodes (Int.ofNat ((st.target_idx + 1) % cfg.motion_nodes.length) - 1) =
      .ok st'.previous_node ∧
    0 < cfg.motion_nodes.length ∧
    st'.current_frame = st.current_frame ∧
    st'.bad_frames = st.bad_frames ∧
    st'.event_num = st.event_num ∧
    st'.motion_start = st.motion_start ∧
    st'.motion_end = st.motion_end ∧
    st'.tracking = st.tracking ∧
    st'.buffer = st.buffer ∧
    st'.frame_store = st.frame_store ∧
    st'.events = st.events := by
  unfold rotateState at h
  by_cases hz : cfg.motion_nodes.length = 0
  · simp [hz] at h
  · simp only [hz, if_false] at h
    cases ht : pyGet cfg.motion_nodes (Int.ofNat ((st.target_idx + 1) % cfg.motion_nodes.length)) with
    | error e => rw [ht] at h; simp at h
    | ok t =>
      cases hp : pyGet cfg.motion_nodes (Int.ofNat ((st.target_idx + 1) % cfg.motion_nodes.length) - 1) with
      | error e => rw [ht, hp] at h; simp at h
      | ok p =>
        rw [ht, hp] at h
        simp only [Except.ok.injEq] at h
        subst h
        exact ⟨rfl, rfl, rfl, by omega, rfl, rfl, rfl, rfl, rfl, rfl, rfl, rfl, rfl⟩

/-! ## The loop invariant -/

/-- Well-formedness of one emitted event row: the start frame does not
exceed the end frame and the duration is the rounded frame difference over
the sampling frequency. -/
def EventOK (freq : ℤ) (ev : Event) : Prop :=
  ev.start_frame ≤ ev.end_frame ∧
  ev.duration = pyRound2 (((ev.end_frame : ℚ) - (ev.start_frame : ℚ)) / (freq : ℚ))

/-- The invariant maintained by every iteration of the frame loop:
tracking is on exactly while the accumulator is nonempty, stored frame
indices are positive and below the current frame, a set `motion_start`
is a positive frame below every stored index, `motion_start` is set away
from the first node, events are densely numbered and well-formed, and the
target index stays in range. -/
def LoopInv (cfg : Config) (st : LoopState) : Prop :=
  (st.tracking = false ↔ st.frame_store = []) ∧
  1 ≤ st.current_frame ∧
  (∀ p ∈ st.frame_store, 1 ≤ p.2 ∧ p.2 < st.current_frame) ∧
  (st.motion_start = -1 ∨
    (1 ≤ st.motion_start ∧ st.motion_start < st.current_frame ∧
     ∀ p ∈ st.frame_store, st.motion_start < p.2)) ∧
  (st.target_idx ≠ 0 → st.motion_start ≠ -1) ∧
  st.event_num = st.events.length + 1 ∧
  (∀ ev ∈ st.events, EventOK cfg.frequency ev) ∧
  st.events.map Event.num = (List.range st.events.length).map (fun i => Int.ofNat i + 1) ∧
  st.target_idx < cfg.motion_nodes.length

/-- Bumping `current_frame` preserves the invariant. -/
theorem inv_bump {cfg : Config} {st : LoopState} (hInv : LoopInv cfg st) :
    LoopInv cfg { st with current_frame := st.current_frame + 1 } := by
  obtain ⟨i1, i2, i3, i4, i5, i6, i7, i8, i9⟩ := hInv
  refine ⟨i1, ?_, ?_, ?_, i5, i6, i7, i8, i9⟩
  · show 1 ≤ st.current_frame + 1
    omega
  · intro p hp
    obtain ⟨h1, h2⟩ := i3 p hp
    refine ⟨h1, ?_⟩
    show p.2 < st.current_frame + 1
    omega
  · rcases i4 with h | ⟨h1, h2, h3⟩
    · exact Or.inl h
    · refine Or.inr ⟨h1, ?_, h3⟩
      show st.motion_start < st.current_frame + 1
      omega

/-- A confirmed departure preserves the invariant (for the state before the
final `current_frame` bump of the iteration). -/
theorem departure_inv {cfg : Config} {st st' : LoopState}
    (hInv : LoopInv cfg st) (htr : st.tracking = true)
    (h : departure cfg st = .ok st') : LoopInv cfg st' := by
  obtain ⟨i1, i2, i3, i4, i5, i6, i7, i8, i9⟩ := hInv
  have hstore : st.frame_store ≠ [] := by
    intro hemp
    rw [htr] at i1
    simpa using i1.mpr hemp
  unfold departure at h
  by_cases h0 : st.target_idx = 0
  · rw [if_pos h0] at h
    cases hm : pyMin st.frame_store with
    | error e => rw [hm] at h; simp at h
    | ok m =>
      rw [hm] at h
      obtain ⟨hmem, _⟩ := pyMin_spec hm
      obtain ⟨hm1, hm2⟩ := i3 m hmem
      obtain ⟨r1, r2, r3, r4, r5, r6, r7, r8, r9, r10, r11, r12, r13⟩ :=
        rotateState_ok h
      have e_tr : st'.tracking = false := r10
      have e_fs : st'.frame_store = [] := r12
      have e_ms : st'.motion_start = m.2 := r8
      have e_cf : st'.current_frame = st.current_frame := r5
      have e_ev : st'.events = st.events := r13
      have e_en : st'.event_num = st.event_num := r7
      have e_ti : st'.target_idx = (st.target_idx + 1) % cfg.motion_nodes.length := r1
      refine ⟨?_, ?_, ?_, ?_, ?_, ?_, ?_, ?_, ?_⟩
      · rw [e_tr, e_fs]; simp
      · rw [e_cf]; exact i2
      · rw [e_fs]; simp
      · rw [e_ms, e_cf, e_fs]
        exact Or.inr ⟨hm1, hm2, by simp⟩
      · rw [e_ms]
        intro _
        omega
      · rw [e_en, e_ev]; exact i6
      · rw [e_ev]; exact i7
      · rw [e_ev]; exact i8
      · rw [e_ti]
        exact Nat.mod_lt _ r4
  · rw [if_neg h0] at h
    by_cases hl : (st.target_idx : ℤ) = (cfg.motion_nodes.length : ℤ) - 1
    · rw [if_pos hl] at h
      cases hm : pyMin st.frame_store with
      | error e => rw [hm] at h; simp at h
      | ok m =>
        rw [hm] at h
        by_cases hf : cfg.frequency = 0
        · rw [hf] at h; simp at h
        simp only [hf, if_false] at h
        obtain ⟨hmem, _⟩ := pyMin_spec hm
        obtain ⟨hm1, hm2⟩ := i3 m hmem
        have hms : st.motion_start ≠ -1 := i5 h0
        have hms4 : 1 ≤ st.motion_start ∧ st.motion_start < st.current_frame ∧
            ∀ p ∈ st.frame_store, st.motion_start < p.2 := by
          rcases i4 with h4 | h4
          · exact absurd h4 hms
          · exact h4
        obtain ⟨hb1, hb2, hb3⟩ := hms4
        obtain ⟨r1, r2, r3, r4, r5, r6, r7, r8, r9, r10, r11, r12, r13⟩ :=
          rotateState_ok h
        have e_tr : st'.tracking = false := r10
        have e_fs : st'.frame_store = [] := r12
        have e_ms : st'.motion_start = -1 := r8
        have e_cf : st'.current_frame = st.current_frame := r5
        have e_ev : st'.events = st.events ++
            [{ num := st.event_num, start_frame := st.motion_start, end_frame := m.2,
               duration :=
                 pyRound2 (((m.2 : ℚ) - (st.motion_start : ℚ)) / (cfg.frequency : ℚ)) }] := r13
        have e_en : st'.event_num = st.event_num + 1 := r7
        have e_ti : st'.target_idx = (st.target_idx + 1) % cfg.motion_nodes.length := r1
        have hnewOK : EventOK cfg.frequency
            { num := st.event_num, start_frame := st.motion_start, end_frame := m.2,
              duration :=
                pyRound2 (((m.2 : ℚ) - (st.motion_start : ℚ)) / (cfg.frequency : ℚ)) } := by
          refine ⟨?_, rfl⟩
          have := hb3 m hmem
          show st.motion_start ≤ m.2
          omega
        refine ⟨?_, ?_, ?_, ?_, ?_, ?_, ?_, ?_, ?_⟩
        · rw [e_tr, e_fs]; simp
        · rw [e_cf]; exact i2
        · rw [e_fs]; simp
        · rw [e_ms]; exact Or.inl rfl
        · rw [e_ti]
          intro hne
          exfalso
          apply hne
          have : st.target_idx + 1 = cfg.motion_nodes.length := by omega
          rw [this]
          exact Nat.mod_self _
        · rw [e_en, e_ev, i6]
          simp [List.length_append]
        · rw [e_ev]
          intro ev hev
          rcases List.mem_append.mp hev with hev | hev
          · exact i7 ev hev
          · rcases List.mem_singleton.mp hev with rfl
            exact hnewOK
        · rw [e_ev]
          rw [List.map_append, List.length_append, i8]
          simp only [List.map_cons, List.map_nil, List.length_singleton]
          rw [List.range_succ, List.map_append]
          simp only [List.map_cons, List.map_nil, List.append_cancel_left_eq,
            List.cons.injEq, and_true]
          rw [i6]
          rfl
        · rw [e_ti]
          exact Nat.mod_lt _ r4
    · rw [if_neg hl] at h
      obtain ⟨r1, r2, r3, r4, r5, r6, r7, r8, r9, r10, r11, r12, r13⟩ :=
        rotateState_ok h
      have e_tr : st'.tracking = false := r10
      have e_fs : st'.frame_store = [] := r12
      have e_ms : st'.motion_start = st.motion_start := r8
      have e_cf : st'.current_frame = st.current_frame := r5
      have e_ev : st'.events = st.events := r13
      have e_en : st'.event_num = st.event_num := r7
      have e_ti : st'.target_idx = (st.target_idx + 1) % cfg.motion_nodes.length := r1
      refine ⟨?_, ?_, ?_, ?_, ?_, ?_, ?_, ?_, ?_⟩
      · rw [e_tr, e_fs]; simp
      · rw [e_cf]; exact i2
      · rw [e_fs]; simp
      · rw [e_ms, e_cf, e_fs]
        rcases i4 with h4 | ⟨h41, h42, _⟩
        · exact Or.inl h4
        · exact Or.inr ⟨h41, h42, by simp⟩
      · rw [e_ms]
        intro _
        exact i5 h0
      · rw [e_en, e_ev]; exact i6
      · rw [e_ev]; exact i7
      · rw [e_ev]; exact i8
      · rw [e_ti]
        exact Nat.mod_lt _ r4

/-- The tracking update of a valid frame preserves the invariant. -/
theorem trackStep_inv {cfg : Config} {st st' : LoopState} {obs : ℚ × ℚ}
    (hInv : LoopInv cfg st) (h : trackStep cfg st obs = .ok st') :
    LoopInv cfg st' := by
  obtain ⟨i1, i2, i3, i4, i5, i6, i7, i8, i9⟩ := hInv
  unfold trackStep at h
  by_cases hr : obs.1 / obs.2 ≤ APPROACH_THRESHOLD ^ 2
  · rw [if_pos hr] at h
    by_cases htr : st.tracking
    · rw [if_pos htr] at h
      injection h with h
      subst h
      refine ⟨?_, ?_, ?_, ?_, i5, i6, i7, i8, i9⟩
      · show st.tracking = false ↔ st.frame_store ++ [(obs.1, st.current_frame)] = []
        simp [htr]
      · show 1 ≤ st.current_frame + 1
        omega
      · intro p hp
        rcases List.mem_append.mp hp with hp | hp
        · obtain ⟨h1, h2⟩ := i3 p hp
          refine ⟨h1, ?_⟩
          show p.2 < st.current_frame + 1
          omega
        · rcases List.mem_singleton.mp hp with rfl
          refine ⟨i2, ?_⟩
          show st.current_frame < st.current_frame + 1
          omega
      · rcases i4 with h4 | ⟨h41, h42, h43⟩
        · exact Or.inl h4
        · refine Or.inr ⟨h41, ?_, ?_⟩
          · show st.motion_start < st.current_frame + 1
            omega
          · intro p hp
            rcases List.mem_append.mp hp with hp | hp
            · exact h43 p hp
            · rcases List.mem_singleton.mp hp with rfl
              exact h42
    · rw [if_neg htr] at h
      injection h with h
      subst h
      refine ⟨?_, ?_, ?_, ?_, i5, i6, i7, i8, i9⟩
      · show (true = false) ↔ st.frame_store ++ [(obs.1, st.current_frame)] = []
        simp
      · show 1 ≤ st.current_frame + 1
        omega
      · intro p hp
        rcases List.mem_append.mp hp with hp | hp
        · obtain ⟨h1, h2⟩ := i3 p hp
          refine ⟨h1, ?_⟩
          show p.2 < st.current_frame + 1
          omega
        · rcases List.mem_singleton.mp hp with rfl
          refine ⟨i2, ?_⟩
          show st.current_frame < st.current_frame + 1
          omega
      · rcases i4 with h4 | ⟨h41, h42, h43⟩
        · exact Or.inl h4
        · refine Or.inr ⟨h41, ?_, ?_⟩
          · show st.motion_start < st.current_frame + 1
            omega
          · intro p hp
            rcases List.mem_append.mp hp with hp | hp
            · exact h43 p hp
            · rcases List.mem_singleton.mp hp with rfl
              exact h42
  · rw [if_neg hr] at h
    by_cases hc : st.tracking ∧ st.buffer - 1 ≤ 0
    · rw [if_pos hc] at h
      cases hd : departure cfg { st with buffer := st.buffer - 1 } with
      | error e => rw [hd] at h; simp at h
      | ok st1 =>
        rw [hd] at h
        injection h with h
        subst h
        have hInvB : LoopInv cfg { st with buffer := st.buffer - 1 } :=
          ⟨i1, i2, i3, i4, i5, i6, i7, i8, i9⟩
        have htrB : ({ st with buffer := st.buffer - 1 } : LoopState).tracking = true := hc.1
        exact inv_bump (departure_inv hInvB htrB hd)
    · rw [if_neg hc] at h
      injection h with h
      subst h
      have hInvB : LoopInv cfg { st with buffer := st.buffer - 1 } :=
        ⟨i1, i2, i3, i4, i5, i6, i7, i8, i9⟩
      exact inv_bump hInvB

/-- One full frame iteration preserves the invariant. -/
theorem stepFrame_inv {cfg : Config} {st st' : LoopState} {row : List ℚ}
    (hInv : LoopInv cfg st) (h : stepFrame cfg st row = .ok st') :
    LoopInv cfg st' := by
  unfold stepFrame at h
  cases ho : frameObs cfg st row with
  | error e => rw [ho] at h; simp at h
  | ok o =>
    rw [ho] at h
    cases o with
    | none =>
      injection h with h
      subst h
      obtain ⟨i1, i2, i3, i4, i5, i6, i7, i8, i9⟩ := hInv
      exact ⟨i1, i2, i3, i4, i5, i6, i7, i8, i9⟩
    | some obs =>
      replace h : (if obs.2 = 0 then Except.error "ZeroDivisionError"
          else trackStep cfg st obs) = Except.ok st' := h
      by_cases hz : obs.2 = 0
      · rw [if_pos hz] at h; simp at h
      · rw [if_neg hz] at h
        exact trackStep_inv hInv h

/-- The whole frame loop preserves the invariant. -/
theorem runRows_inv {cfg : Config} :
    ∀ {rows : List (List ℚ)} {st st' : LoopState},
      LoopInv cfg st → runRows cfg st rows = .ok st' → LoopInv cfg st' := by
  intro rows
  induction rows with
  | nil =>
    intro st st' hInv h
    unfold runRows at h
    injection h with h
    subst h
    exact hInv
  | cons row rest ih =>
    intro st st' hInv h
    unfold runRows at h
    cases hs : stepFrame cfg st row with
    | error e => rw [hs] at h; simp at h
    | ok st1 =>
      rw [hs] at h
      exact ih (stepFrame_inv hInv hs) h

/-- A successful `pyGet` means the list is nonempty. -/
theorem pyGet_ok_nonempty {α : Type} {xs : List α} {i : ℤ} {a : α}
    (h : pyGet xs i = .ok a) : xs ≠ [] := by
  intro he
  subst he
  unfold pyGet at h
  simp only [List.length_nil, List.get?_nil] at h
  rcases Int.lt_or_le i 0 with hi | hi
  · rw [if_pos hi] at h
    by_cases h0 : (0 : ℤ) ≤ i + (0 : ℕ)
    · rw [if_pos h0] at h; exact Except.noConfusion h
    · rw [if_neg h0] at h; exact Except.noConfusion h
  · rw [if_neg (by omega : ¬ i < 0)] at h
    rw [if_pos hi] at h
    exact Except.noConfusion h

/-- The initial loop state satisfies the invariant. -/
theorem initState_inv {cfg : Config} {st0 : LoopState}
    (h : initState cfg = .ok st0) : LoopInv cfg st0 := by
  unfold initState at h
  cases h0 : pyGet cfg.motion_nodes 0 with
  | error e => rw [h0] at h; simp at h
  | ok t =>
    cases h1 : pyGet cfg.motion_nodes (-1) with
    | error e => rw [h0, h1] at h; simp at h
    | ok p =>
      rw [h0, h1] at h
      injection h with h
      subst h
      have hlen : 0 < cfg.motion_nodes.length := by
        have := pyGet_ok_nonempty h0
        cases hn : cfg.motion_nodes with
        | nil => exact absurd hn this
        | cons a l => simp [hn]
      exact ⟨by simp, by norm_num, by simp, Or.inl rfl, by simp,
        by simp, by simp, by simp, hlen⟩

/-! ## Python indexing and error classification -/

/-- A successful `pyGet` at a nonnegative index is a plain list lookup. -/
theorem pyGet_ok_get? {α : Type} {xs : List α} {i : ℤ} {a : α} (hi : 0 ≤ i)
    (h : pyGet xs i = .ok a) : xs.get? i.toNat = some a := by
  simp only [pyGet] at h
  rw [if_neg (by omega : ¬ i < 0)] at h
  rw [if_pos hi] at h
  cases hg : xs.get? i.toNat with
  | none => rw [hg] at h; exact Except.noConfusion h
  | some b => rw [hg] at h; injection h with h; subst h; rfl

/-- A successful `pyGet` at Python index `-1` returns the last element. -/
theorem pyGet_neg_one_getLast? {α : Type} {xs : List α} {a : α}
    (h : pyGet xs (-1) = .ok a) : xs.getLast? = some a := by
  simp only [pyGet] at h
  rw [if_pos (by omega : (-1 : ℤ) < 0)] at h
  by_cases hl : (0 : ℤ) ≤ -1 + (xs.length : ℤ)
  · rw [if_pos hl] at h
    have ht : ((-1 : ℤ) + (xs.length : ℤ)).toNat = xs.length - 1 := by omega
    rw [ht] at h
    cases hg : xs.get? (xs.length - 1) with
    | none => rw [hg] at h; exact Except.noConfusion h
    | some b =>
      rw [hg] at h
      injection h with h
      subst h
      rw [List.getLast?_eq_getElem?, ← List.get?_eq_getElem?]
      exact hg
  · rw [if_neg hl] at h
    exact Except.noConfusion h

/-- Every `pyGet` failure is an `IndexError`. -/
theorem pyGet_error {α : Type} {xs : List α} {i : ℤ} {e : String}
    (h : pyGet xs i = .error e) : e = "IndexError" := by
  simp only [pyGet] at h
  repeat' split at h
  all_goals first
    | exact Except.noConfusion h
    | (injection h with h; exact h.symm)

/-- Every `dictGet` failure is a `KeyError`. -/
theorem dictGet_error {d : List (String × ℕ)} {k : String} {e : String}
    (h : dictGet d k = .error e) : e = "KeyError" := by
  unfold dictGet at h
  cases hf : d.find? (fun p => p.1 = k) with
  | none => rw [hf] at h; injection h with h; exact h.symm
  | some p => rw [hf] at h; exact Except.noConfusion h

/-- Every `rowPoint` failure is an `IndexError`. -/
theorem rowPoint_error {row : List ℚ} {col : ℕ} {e : String}
    (h : rowPoint row col = .error e) : e = "IndexError" := by
  unfold rowPoint at h
  repeat' split at h
  all_goals first
    | exact Except.noConfusion h
    | (injection h with h; exact h.symm)

/-- Every failure of the per-frame marker resolution is a `KeyError` or an
`IndexError`. -/
theorem frameObs_error {cfg : Config} {st : LoopState} {row : List ℚ} {e : String}
    (h : frameObs cfg st row = .error e) :
    e = "KeyError" ∨ e = "IndexError" := by
  unfold frameObs at h
  repeat' split at h
  all_goals first
    | exact Except.noConfusion h
    | (injection h with h; subst h; first
        | exact Or.inl (dictGet_error (by assumption))
        | exact Or.inr (rowPoint_error (by assumption)))

/-- A `pyMin` failure only happens on the empty list. -/
theorem pyMin_error_empty {xs : List (ℚ × ℤ)} {e : String}
    (h : pyMin xs = .error e) : xs = [] := by
  match xs with
  | [] => rfl
  | x :: r => simp [pyMin] at h

/-- Every `rotateState` failure is a `ZeroDivisionError` or an
`IndexError`. -/
theorem rotateState_error {cfg : Config} {st : LoopState} {e : String}
    (h : rotateState cfg st = .error e) :
    e = "ZeroDivisionError" ∨ e = "IndexError" := by
  unfold rotateState at h
  repeat' split at h
  all_goals first
    | exact Except.noConfusion h
    | (injection h with h; subst h; first
        | exact Or.inl rfl
        | exact Or.inr (pyGet_error (by assumption)))

/-- With a nonempty accumulator, a departure never fails with the
`ValueError` of `min([])`. -/
theorem departure_error {cfg : Config} {st : LoopState} {e : String}
    (hst : st.frame_store ≠ [])
    (h : departure cfg st = .error e) : e ≠ "ValueError" := by
  unfold departure at h
  by_cases h0 : st.target_idx = 0
  · rw [if_pos h0] at h
    cases hm : pyMin st.frame_store with
    | error e1 => exact absurd (pyMin_error_empty hm) hst
    | ok m =>
      rw [hm] at h
      rcases rotateState_error h with h | h <;> simp [h]
  · rw [if_neg h0] at h
    by_cases hl : (st.target_idx : ℤ) = (cfg.motion_nodes.length : ℤ) - 1
    · rw [if_pos hl] at h
      cases hm : pyMin st.frame_store with
      | error e1 => exact absurd (pyMin_error_empty hm) hst
      | ok m =>
        rw [hm] at h
        by_cases hf : cfg.frequency = 0
        · rw [hf] at h
          simp only [if_pos rfl] at h
          injection h with h
          subst h
          simp
        · simp only [hf, if_false] at h
          rcases rotateState_error h with h | h <;> simp [h]
    · rw [if_neg hl] at h
      rcases rotateState_error h with h | h <;> simp [h]

/-- With tracking implying a nonempty accumulator, a tracking update never
fails with the `ValueError` of `min([])`. -/
theorem trackStep_error {cfg : Config} {st : LoopState} {obs : ℚ × ℚ} {e : String}
    (hst : st.tracking = true → st.frame_store ≠ [])
    (h : trackStep cfg st obs = .error e) : e ≠ "ValueError" := by
  unfold trackStep at h
  by_cases hr : obs.1 / obs.2 ≤ APPROACH_THRESHOLD ^ 2
  · rw [if_pos hr] at h
    by_cases htr : st.tracking
    · rw [if_pos htr] at h; exact Except.noConfusion h
    · rw [if_neg htr] at h; exact Except.noConfusion h
  · rw [if_neg hr] at h
    by_cases hc : st.tracking ∧ st.buffer - 1 ≤ 0
    · rw [if_pos hc] at h
      cases hd : departure cfg { st with buffer := st.buffer - 1 } with
      | error e1 =>
        rw [hd] at h
        injection h with h
        subst h
        have hne : ({ st with buffer := st.buffer - 1 } : LoopState).frame_store ≠ [] :=
          hst hc.1
        exact departure_error hne hd
      | ok st1 => rw [hd] at h; exact Except.noConfusion h
    · rw [if_neg hc] at h; exact Except.noConfusion h

/-- Under the invariant, one frame iteration never fails with the
`ValueError` of `min([])`. -/
theorem stepFrame_error {cfg : Config} {st : LoopState} {row : List ℚ} {e : String}
    (hst : st.tracking = true → st.frame_store ≠ [])
    (h : stepFrame cfg st row = .error e) : e ≠ "ValueError" := by
  unfold stepFrame at h
  cases ho : frameObs cfg st row with
  | error e1 =>
    rw [ho] at h
    injection h with h
    subst h
    rcases frameObs_error ho with h | h <;> simp [h]
  | ok o =>
    rw [ho] at h
    cases o with
    | none => exact Except.noConfusion h
    | some obs =>
      replace h : (if obs.2 = 0 then Except.error "ZeroDivisionError"
          else trackStep cfg st obs) = Except.error e := h
      by_cases hz : obs.2 = 0
      · rw [if_pos hz] at h
        injection h with h
        subst h
        simp
      · rw [if_neg hz] at h
        exact trackStep_error hst h

/-- Under the invariant, the frame loop never fails with the `ValueError`
of `min([])`: the accumulator is nonempty whenever its minimum is taken. -/
theorem runRows_error {cfg : Config} :
    ∀ {rows : List (List ℚ)} {st : LoopState} {e : String},
      LoopInv cfg st → runRows cfg st rows = .error e → e ≠ "ValueError" := by
  intro rows
  induction rows with
  | nil =>
    intro st e hInv h
    unfold runRows at h
    exact Except.noConfusion h
  | cons row rest ih =>
    intro st e hInv h
    unfold runRows at h
    cases hs : stepFrame cfg st row with
    | error e1 =>
      rw [hs] at h
      injection h with h
      subst h
      refine stepFrame_error ?_ hs
      intro htr hemp
      obtain ⟨i1, _⟩ := hInv
      rw [htr] at i1
      simpa using i1.mpr hemp
    | ok st1 =>
      rw [hs] at h
      exact ih (stepFrame_inv hInv hs) h

/-! ## Concrete runs used as witnesses and counterexamples -/

/-- The initial state of a run with `demoCfg`. -/
def demoSt0 : LoopState :=
  { current_frame := 1, bad_frames := 0, event_num := 1, motion_start := -1,
    motion_end := -1, tracking := false, buffer := 0, frame_store := [],
    events := [], target_idx := 0, target_node := "A", previous_node := "B" }

/-- Fourteen data rows realising one clean traversal `A` then `B`: six
frames near `A`, seven near `B` (the first of which confirms the departure
from `A`), and one near `A` again confirming the departure from `B`. -/
def demoRows : List (List ℚ) :=
  List.replicate 6 rowNearA ++ List.replicate 7 rowNearB ++ [rowNearA]

/-- The single event emitted by the `demoRows` run. -/
def demoEvent : Event :=
  { num := 1, start_frame := 1, end_frame := 8, duration := 7 }

/-- The final state of the `demoRows` run. -/
def demoFinal : LoopState :=
  { current_frame := 15, bad_frames := 0, event_num := 2, motion_start := -1,
    motion_end := -1, tracking := false, buffer := -1, frame_store := [],
    events := [demoEvent], target_idx := 0, target_node := "A",
    previous_node := "B" }

/-- Final state of the two-row run whose first row has a sentinel hand
position: the valid second row is assigned frame index 1, not 2. -/
def badRunFinal : LoopState :=
  { current_frame := 2, bad_frames := 1, event_num := 1, motion_start := -1,
    motion_end := -1, tracking := true, buffer := 5, frame_store := [(1, 1)],
    events := [], target_idx := 0, target_node := "A", previous_node := "B" }

/-- A mid-approach state: tracking on for three frames, debounce counter
still at 3. -/
def approachSt : LoopState :=
  { current_frame := 4, bad_frames := 0, event_num := 1, motion_start := -1,
    motion_end := -1, tracking := true, buffer := 3,
    frame_store := [(1, 1), (1, 2), (1, 3)], events := [], target_idx := 0,
    target_node := "A", previous_node := "B" }

/-- A state at the first node whose accumulator is the example of the
specification: samples `(5,10)`, `(3,11)`, `(4,12)`, debounce elapsed. -/
def c3St : LoopState :=
  { current_frame := 13, bad_frames := 0, event_num := 1, motion_start := -1,
    motion_end := -1, tracking := true, buffer := 0,
    frame_store := [(5, 10), (3, 11), (4, 12)], events := [], target_idx := 0,
    target_node := "A", previous_node := "B" }

/-- The state after the confirmed departure from `c3St`: `motion_start` is
the frame of the minimal sample, `11`. -/
def c3Result : LoopState :=
  { current_frame := 14, bad_frames := 0, event_num := 1, motion_start := 11,
    motion_end := -1, tracking := false, buffer := -1, frame_store := [],
    events := [], target_idx := 1, target_node := "B", previous_node := "A" }

/-- A data row whose target-node (`A`) position is the sentinel. -/
def rowBadTarget : List ℚ := [10, 1, 0, 0, 0, 0, 20, 0, 0]

/-- A data row whose hand position coincides with the previous node `B`. -/
def rowHandAtB : List ℚ := [20, 0, 0, 10, 0, 0, 20, 0, 0]

theorem demoInit_eq : initState demoCfg = .ok demoSt0 := by
  norm_num +decide [initState, pyGet, demoCfg, demoSt0, List.get?]

theorem demoRun_eq : runRows demoCfg demoSt0 demoRows = .ok demoFinal := by
  norm_num +decide [runRows, stepFrame, frameObs, trackStep, departure,
    rotateState, pyGet, dictGet, rowPoint, pyMin, pairLt, distSq, zeroPoint,
    APPROACH_THRESHOLD, APPROACH_BUFFER, pyRound2, roundHalfEven, demoCfg,
    demoSt0, demoRows, demoFinal, demoEvent, rowNearA, rowNearB, List.find?,
    List.replicate, List.get?]

theorem badRun_eq : runRows demoCfg demoSt0 [rowBadHand, rowNearA] = .ok badRunFinal := by
  norm_num +decide [runRows, stepFrame, frameObs, trackStep, departure,
    rotateState, pyGet, dictGet, rowPoint, pyMin, pairLt, distSq, zeroPoint,
    APPROACH_THRESHOLD, APPROACH_BUFFER, demoCfg, demoSt0, badRunFinal,
    rowBadHand, rowNearA, List.find?, List.get?]

/-! ## Auxiliary step characterisations -/

/-- A departure changes neither the frame counter nor the bad-frame
counter. -/
theorem departure_frames {cfg : Config} {st st1 : LoopState}
    (h : departure cfg st = .ok st1) :
    st1.current_frame = st.current_frame ∧ st1.bad_frames = st.bad_frames := by
  unfold departure at h
  by_cases h0 : st.target_idx = 0
  · rw [if_pos h0] at h
    cases hm : pyMin st.frame_store with
    | error e => rw [hm] at h; simp at h
    | ok m =>
      rw [hm] at h
      obtain ⟨_, _, _, _, r5, r6, _⟩ := rotateState_ok h
      exact ⟨r5, r6⟩
  · rw [if_neg h0] at h
    by_cases hl : (st.target_idx : ℤ) = (cfg.motion_nodes.length : ℤ) - 1
    · rw [if_pos hl] at h
      cases hm : pyMin st.frame_store with
      | error e => rw [hm] at h; simp at h
      | ok m =>
        rw [hm] at h
        by_cases hf : cfg.frequency = 0
        · rw [hf] at h; simp at h
        · simp only [hf, if_false] at h
          obtain ⟨_, _, _, _, r5, r6, _⟩ := rotateState_ok h
          exact ⟨r5, r6⟩
    · rw [if_neg hl] at h
      obtain ⟨_, _, _, _, r5, r6, _⟩ := rotateState_ok h
      exact ⟨r5, r6⟩

/-- A departure rotates the target index by one modulo the node count and
reads the new previous node at Python index `target_idx - 1`. -/
theorem departure_rotation {cfg : Config} {st st1 : LoopState}
    (h : departure cfg st = .ok st1) :
    st1.target_idx = (st.target_idx + 1) % cfg.motion_nodes.length ∧
    pyGet cfg.motion_nodes
      (Int.ofNat ((st.target_idx + 1) % cfg.motion_nodes.length) - 1) =
      .ok st1.previous_node ∧
    0 < cfg.motion_nodes.length := by
  unfold departure at h
  by_cases h0 : st.target_idx = 0
  · rw [if_pos h0] at h
    cases hm : pyMin st.frame_store with
    | error e => rw [hm] at h; simp at h
    | ok m =>
      rw [hm] at h
      obtain ⟨r1, _, r3, r4, _⟩ := rotateState_ok h
      exact ⟨r1, r3, r4⟩
  · rw [if_neg h0] at h
    by_cases hl : (st.target_idx : ℤ) = (cfg.motion_nodes.length : ℤ) - 1
    · rw [if_pos hl] at h
      cases hm : pyMin st.frame_store with
      | error e => rw [hm] at h; simp at h
      | ok m =>
        rw [hm] at h
        by_cases hf : cfg.frequency = 0
        · rw [hf] at h; simp at h
        · simp only [hf, if_false] at h
          obtain ⟨r1, _, r3, r4, _⟩ := rotateState_ok h
          exact ⟨r1, r3, r4⟩
    · rw [if_neg hl] at h
      obtain ⟨r1, _, r3, r4, _⟩ := rotateState_ok h
      exact ⟨r1, r3, r4⟩

/-- The header loop leaves `frame_count` alone when no row is tagged
`NO_OF_FRAMES`. -/
theorem parseHeader_no_frames_tag :
    ∀ {rows : List (List String)} {hs0 hs : HeaderState} {rest : List (List String)},
      (∀ r ∈ rows, r.head? ≠ some "NO_OF_FRAMES") →
      parseHeaderRows rows hs0 = .ok (hs, rest) →
      hs.frame_count = hs0.frame_count := by
  intro rows
  induction rows with
  | nil =>
    intro hs0 hs rest hno h
    unfold parseHeaderRows at h
    injection h with h
    rw [Prod.mk.injEq] at h
    rw [← h.1]
  | cons row rest' ih =>
    intro hs0 hs rest hno h
    unfold parseHeaderRows at h
    cases hh : row.head? with
    | none => rw [hh] at h; exact Except.noConfusion h
    | some tag =>
      have htag : ¬ tag = "NO_OF_FRAMES" := by
        intro he
        exact hno row (List.mem_cons_self _ _) (by rw [hh, he])
      rw [hh] at h
      by_cases hfr : tag = "FREQUENCY"
      · subst hfr
        simp only [reduceIte] at h
        cases hv : row.get? 1 with
        | none => rw [hv] at h; exact Except.noConfusion h
        | some v =>
          simp only [hv] at h
          cases hpi : pyInt v with
          | error e => rw [hpi] at h; exact Except.noConfusion h
          | ok n =>
            simp only [hpi] at h
            split at h
            · rename_i hcond
              exact absurd hcond (by decide)
            · have hrec := ih (fun r hr => hno r (List.mem_cons_of_mem _ hr)) h
              rw [hrec]
      · by_cases hmk : tag = "MARKER_NAMES"
        · subst hmk
          simp only [reduceIte] at h
          injection h with h
          rw [Prod.mk.injEq] at h
          rw [← h.1]
        · simp only [htag, hfr, hmk, if_false] at h
          exact ih (fun r hr => hno r (List.mem_cons_of_mem _ hr)) h

/-! ## Claims -/

/-- C1 (counterexample): after six approaching frames at node `A`, a single
above-threshold frame (one frame, fewer than `APPROACH_BUFFER = 5`
consecutive) is followed by a frame whose hand position is again next to
`A`; yet the run records a departure at that single excursion frame:
tracking is off, the accumulator is dropped, the target index has rotated
to `1` and `motion_start = 1` has been recorded — contradicting the claim
that no departure transition occurs. -/
theorem C1_counterexample :
    runEvents demoCfg (List.replicate 6 rowNearA ++ [rowNearB, rowNearA]) =
      .ok { current_frame := 9, bad_frames := 0, event_num := 1,
            motion_start := 1, motion_end := -1, tracking := false,
            buffer := -2, frame_store := [], events := [], target_idx := 1,
            target_node := "B", previous_node := "A" } := by
  norm_num +decide [runEvents, initState, runRows, stepFrame, frameObs,
    trackStep, departure, rotateState, pyGet, dictGet, rowPoint, pyMin,
    pairLt, distSq, zeroPoint, APPROACH_THRESHOLD, APPROACH_BUFFER, demoCfg,
    rowNearA, rowNearB, List.find?, List.replicate, List.get?]

/-- C1 (amended): during an approach, an above-threshold valid frame
arriving while the debounce counter is still positive after its decrement
(i.e. fewer than `APPROACH_BUFFER` valid frames have elapsed since the
approach began) causes no departure: tracking stays on, the accumulator
and target are kept, no `motion_start`/`motion_end`/event is recorded; only
the debounce counter and the frame counter advance.  The debounce is a
minimum dwell time measured from approach entry, not a count of
consecutive above-threshold frames. -/
theorem C1_amended {cfg : Config} {st : LoopState} {row : List ℚ} {obs : ℚ × ℚ}
    (hobs : frameObs cfg st row = .ok (some obs)) (hz : obs.2 ≠ 0)
    (hr : ¬ (obs.1 / obs.2 ≤ APPROACH_THRESHOLD ^ 2))
    (htr : st.tracking = true) (hbuf : 0 < st.buffer - 1) :
    stepFrame cfg st row =
      .ok { st with buffer := st.buffer - 1,
                    current_frame := st.current_frame + 1 } := by
  unfold stepFrame
  rw [hobs]
  show (if obs.2 = 0 then Except.error "ZeroDivisionError"
    else trackStep cfg st obs) = _
  rw [if_neg hz]
  unfold trackStep
  rw [if_neg hr]
  rw [if_neg (by omega : ¬ (st.tracking = true ∧ st.buffer - 1 ≤ 0))]

/-- C1 (witness): the amended statement at a concrete mid-approach state
(debounce counter 3) and an above-threshold row. -/
theorem C1_witness :
    stepFrame demoCfg approachSt rowNearB =
      .ok { approachSt with buffer := approachSt.buffer - 1,
                            current_frame := approachSt.current_frame + 1 } := by
  have hobs : frameObs demoCfg approachSt rowNearB = .ok (some ((101 : ℚ), (1 : ℚ))) := by
    norm_num +decide [frameObs, dictGet, rowPoint, distSq, zeroPoint,
      demoCfg, approachSt, rowNearB, List.find?, List.get?]
  exact C1_amended hobs (by norm_num) (by norm_num [APPROACH_THRESHOLD]) rfl
    (by norm_num [approachSt])

/-- C2 (counterexample): a run on two data rows whose first row has a
sentinel hand position.  The valid second row — the second data row of the
input — is stored in the accumulator with frame index `1`, and after both
rows `current_frame` is `2`, not `3`: frame indices do not count
sentinel-skipped rows, contradicting the claim that every data row gets an
ordinal index equal to its position among all data rows. -/
theorem C2_counterexample :
    runEvents demoCfg [rowBadHand, rowNearA] =
      .ok { current_frame := 2, bad_frames := 1, event_num := 1,
            motion_start := -1, motion_end := -1, tracking := true,
            buffer := 5, frame_store := [(1, 1)], events := [],
            target_idx := 0, target_node := "A", previous_node := "B" } := by
  norm_num +decide [runEvents, initState, runRows, stepFrame, frameObs,
    trackStep, departure, rotateState, pyGet, dictGet, rowPoint, pyMin,
    pairLt, distSq, zeroPoint, APPROACH_THRESHOLD, APPROACH_BUFFER, demoCfg,
    rowBadHand, rowNearA, List.find?, List.get?]

/-- C2 (amended): the frame counter numbers only the valid rows.  Every
processed row advances exactly one of `current_frame` (valid row) and
`bad_frames` (sentinel-skipped row), so after any completed run
`current_frame + bad_frames` grew by exactly the number of rows, and the
index a valid row receives is one plus the number of valid rows before it;
indices in the accumulator and in events refer to this valid-row
numbering, which is still strictly increasing. -/
theorem C2_amended :
    (∀ (cfg : Config) (st st' : LoopState) (row : List ℚ),
       stepFrame cfg st row = .ok st' →
       (st'.current_frame = st.current_frame + 1 ∧ st'.bad_frames = st.bad_frames) ∨
       (st'.current_frame = st.current_frame ∧ st'.bad_frames = st.bad_frames + 1)) ∧
    (∀ (cfg : Config) (st0 st : LoopState) (rows : List (List ℚ)),
       runRows cfg st0 rows = .ok st →
       st.current_frame + st.bad_frames =
         st0.current_frame + st0.bad_frames + rows.length) := by
  have hstep : ∀ (cfg : Config) (st st' : LoopState) (row : List ℚ),
      stepFrame cfg st row = .ok st' →
      (st'.current_frame = st.current_frame + 1 ∧ st'.bad_frames = st.bad_frames) ∨
      (st'.current_frame = st.current_frame ∧ st'.bad_frames = st.bad_frames + 1) := by
    intro cfg st st' row h
    unfold stepFrame at h
    cases ho : frameObs cfg st row with
    | error e => rw [ho] at h; simp at h
    | ok o =>
      rw [ho] at h
      cases o with
      | none =>
        injection h with h
        subst h
        exact Or.inr ⟨rfl, rfl⟩
      | some obs =>
        replace h : (if obs.2 = 0 then Except.error "ZeroDivisionError"
            else trackStep cfg st obs) = Except.ok st' := h
        by_cases hz : obs.2 = 0
        · rw [if_pos hz] at h; simp at h
        · rw [if_neg hz] at h
          unfold trackStep at h
          by_cases hr : obs.1 / obs.2 ≤ APPROACH_THRESHOLD ^ 2
          · rw [if_pos hr] at h
            by_cases htr : st.tracking
            · rw [if_pos htr] at h
              injection h with h
              subst h
              exact Or.inl ⟨rfl, rfl⟩
            · rw [if_neg htr] at h
              injection h with h
              subst h
              exact Or.inl ⟨rfl, rfl⟩
          · rw [if_neg hr] at h
            by_cases hc : st.tracking ∧ st.buffer - 1 ≤ 0
            · rw [if_pos hc] at h
              cases hd : departure cfg { st with buffer := st.buffer - 1 } with
              | error e => rw [hd] at h; simp at h
              | ok st1 =>
                rw [hd] at h
                injection h with h
                subst h
                obtain ⟨f1, f2⟩ := departure_frames hd
                exact Or.inl ⟨by rw [f1], by rw [f2]⟩
            · rw [if_neg hc] at h
              injection h with h
              subst h
              exact Or.inl ⟨rfl, rfl⟩
  refine ⟨hstep, ?_⟩
  intro cfg st0 st rows
  induction rows generalizing st0 with
  | nil =>
    intro h
    unfold runRows at h
    injection h with h
    subst h
    simp
  | cons row rest ih =>
    intro h
    unfold runRows at h
    cases hs : stepFrame cfg st0 row with
    | error e => rw [hs] at h; simp at h
    | ok st1 =>
      rw [hs] at h
      have hr := ih st1 h
      rcases hstep cfg st0 st1 row hs with ⟨e1, e2⟩ | ⟨e1, e2⟩ <;>
        (rw [e1, e2] at hr; simp only [List.length_cons]; omega)

/-- C2 (witness): the amended accounting applied to the fourteen-row demo
run: `15 + 0 = 1 + 0 + 14`. -/
theorem C2_witness :
    demoFinal.current_frame + demoFinal.bad_frames =
      demoSt0.current_frame + demoSt0.bad_frames + demoRows.length :=
  C2_amended.2 demoCfg demoSt0 demoFinal demoRows demoRun_eq

/-- C3: at a confirmed departure from the first node, `motion_start` is the
frame index of the lexicographically least accumulated sample (globally
minimal distance, ties broken by the earliest frame); at the last node the
emitted event's end frame is computed the same way; and on the
specification's example accumulator `[(5,10),(3,11),(4,12)]` the Python
`min` returns the sample with frame `11`. -/
theorem C3_motion_start_min :
    (∀ (cfg : Config) (st st' : LoopState) (obs : ℚ × ℚ),
       st.target_idx = 0 → st.tracking = true →
       ¬ (obs.1 / obs.2 ≤ APPROACH_THRESHOLD ^ 2) → st.buffer - 1 ≤ 0 →
       trackStep cfg st obs = .ok st' →
       ∃ m, m ∈ st.frame_store ∧ (∀ p ∈ st.frame_store, PairLe m p) ∧
         st'.motion_start = m.2) ∧
    (∀ (cfg : Config) (st st' : LoopState) (obs : ℚ × ℚ),
       st.target_idx ≠ 0 →
       (st.target_idx : ℤ) = (cfg.motion_nodes.length : ℤ) - 1 →
       st.tracking = true →
       ¬ (obs.1 / obs.2 ≤ APPROACH_THRESHOLD ^ 2) → st.buffer - 1 ≤ 0 →
       trackStep cfg st obs = .ok st' →
       ∃ m, m ∈ st.frame_store ∧ (∀ p ∈ st.frame_store, PairLe m p) ∧
         st'.events = st.events ++
           [{ num := st.event_num, start_frame := st.motion_start,
              end_frame := m.2,
              duration := pyRound2 (((m.2 : ℚ) - (st.motion_start : ℚ)) /
                (cfg.frequency : ℚ)) }]) ∧
    pyMin [((5 : ℚ), (10 : ℤ)), (3, 11), (4, 12)] = .ok (3, 11) := by
  refine ⟨?_, ?_, ?_⟩
  · intro cfg st st' obs h0 htr hr hbuf h
    unfold trackStep at h
    rw [if_neg hr] at h
    rw [if_pos ⟨htr, hbuf⟩] at h
    cases hd : departure cfg { st with buffer := st.buffer - 1 } with
    | error e => rw [hd] at h; simp at h
    | ok st1 =>
      rw [hd] at h
      injection h with h
      subst h
      unfold departure at hd
      rw [if_pos h0] at hd
      cases hm : pyMin st.frame_store with
      | error e => rw [hm] at hd; simp at hd
      | ok m =>
        rw [hm] at hd
        obtain ⟨hmem, hmin⟩ := pyMin_spec hm
        obtain ⟨_, _, _, _, _, _, _, r8, _⟩ := rotateState_ok hd
        exact ⟨m, hmem, hmin, r8⟩
  · intro cfg st st' obs h0 hl htr hr hbuf h
    unfold trackStep at h
    rw [if_neg hr] at h
    rw [if_pos ⟨htr, hbuf⟩] at h
    cases hd : departure cfg { st with buffer := st.buffer - 1 } with
    | error e => rw [hd] at h; simp at h
    | ok st1 =>
      rw [hd] at h
      injection h with h
      subst h
      unfold departure at hd
      rw [if_neg h0] at hd
      rw [if_pos hl] at hd
      cases hm : pyMin st.frame_store with
      | error e => rw [hm] at hd; simp at hd
      | ok m =>
        rw [hm] at hd
        by_cases hf : cfg.frequency = 0
        · rw [hf] at hd; simp at hd
        · simp only [hf, if_false] at hd
          obtain ⟨hmem, hmin⟩ := pyMin_spec hm
          obtain ⟨_, _, _, _, _, _, _, _, _, _, _, _, r13⟩ := rotateState_ok hd
          exact ⟨m, hmem, hmin, r13⟩
  · norm_num [pyMin, pairLt]

/-- C3 (witness): on the concrete first-node state whose accumulator is the
specification's example, the confirmed departure sets `motion_start = 11`. -/
theorem C3_witness :
    trackStep demoCfg c3St ((101 : ℚ), (1 : ℚ)) = .ok c3Result ∧
    c3Result.motion_start = 11 := by
  have hrun : trackStep demoCfg c3St ((101 : ℚ), (1 : ℚ)) = .ok c3Result := by
    norm_num +decide [trackStep, departure, rotateState, pyGet, pyMin, pairLt,
      APPROACH_THRESHOLD, demoCfg, c3St, c3Result, List.get?]
  obtain ⟨m, hmem, hmin, hms⟩ :=
    C3_motion_start_min.1 demoCfg c3St c3Result ((101 : ℚ), (1 : ℚ)) rfl rfl
      (by norm_num [APPROACH_THRESHOLD]) (by norm_num [c3St]) hrun
  refine ⟨hrun, ?_⟩
  rw [hms]
  have hmem' : m = ((5 : ℚ), (10 : ℤ)) ∨ m = (3, 11) ∨ m = (4, 12) := by
    simpa [c3St] using hmem
  rcases hmem' with rfl | rfl | rfl
  · exfalso
    have := hmin (3, 11) (by simp [c3St])
    rcases this with h | ⟨h, _⟩ <;> norm_num at h
  · rfl
  · exfalso
    have := hmin (3, 11) (by simp [c3St])
    rcases this with h | ⟨h, _⟩ <;> norm_num at h

/-- C5: a frame whose hand, current-target or current-previous marker
position is the sentinel `(0,0,0)` is skipped entirely: the step only
increments the invalid-frame counter; the debounce counter, tracking flag,
accumulator, target index, motion boundaries and event list are unchanged,
and no sample is added. -/
theorem C5_invalid_frame_skipped {cfg : Config} {st : LoopState} {row : List ℚ}
    {hoff toff poff : ℕ} {hpt tpt ppt : Point}
    (hh : dictGet cfg.marker_names cfg.hand_marker = .ok hoff)
    (hhp : rowPoint row (hoff * 3) = .ok hpt)
    (ht : dictGet cfg.marker_names st.target_node = .ok toff)
    (htp : rowPoint row (toff * 3) = .ok tpt)
    (hp : dictGet cfg.marker_names st.previous_node = .ok poff)
    (hpp : rowPoint row (poff * 3) = .ok ppt)
    (hsent : hpt = zeroPoint ∨ tpt = zeroPoint ∨ ppt = zeroPoint) :
    stepFrame cfg st row = .ok { st with bad_frames := st.bad_frames + 1 } := by
  have hobs : frameObs cfg st row = .ok none := by
    rcases hsent with hs | hs | hs
    · simp [frameObs, hh, hhp, hs]
    · by_cases hhz : hpt = zeroPoint
      · simp [frameObs, hh, hhp, hhz]
      · simp [frameObs, hh, hhp, hhz, ht, htp, hs]
    · by_cases hhz : hpt = zeroPoint
      · simp [frameObs, hh, hhp, hhz]
      · by_cases htz : tpt = zeroPoint
        · simp [frameObs, hh, hhp, hhz, ht, htp, htz]
        · simp [frameObs, hh, hhp, hhz, ht, htp, htz, hp, hpp, hs]
  simp [stepFrame, hobs]

/-- C5 (witness): a concrete row whose target-marker position is the
sentinel is counted and otherwise ignored. -/
theorem C5_witness :
    stepFrame demoCfg demoSt0 rowBadTarget =
      .ok { demoSt0 with bad_frames := demoSt0.bad_frames + 1 } := by
  have hh : dictGet demoCfg.marker_names demoCfg.hand_marker = .ok 0 := by
    norm_num +decide [dictGet, demoCfg, List.find?]
  have hhp : rowPoint rowBadTarget (0 * 3) = .ok ⟨10, 1, 0⟩ := by
    norm_num [rowPoint, rowBadTarget, List.get?]
  have ht : dictGet demoCfg.marker_names demoSt0.target_node = .ok 1 := by
    norm_num +decide [dictGet, demoCfg, demoSt0, List.find?]
  have htp : rowPoint rowBadTarget (1 * 3) = .ok ⟨0, 0, 0⟩ := by
    norm_num [rowPoint, rowBadTarget, List.get?]
  have hp : dictGet demoCfg.marker_names demoSt0.previous_node = .ok 2 := by
    norm_num +decide [dictGet, demoCfg, demoSt0, List.find?]
  have hpp : rowPoint rowBadTarget (2 * 3) = .ok ⟨20, 0, 0⟩ := by
    norm_num [rowPoint, rowBadTarget, List.get?]
  exact C5_invalid_frame_skipped hh hhp ht htp hp hpp (Or.inr (Or.inl rfl))

/-- C6: every confirmed departure advances the target index by one modulo
the node count, and the new previous node is read at Python index
`target_idx - 1`: the node just before the new target in declared order
when the new index is positive, and the last node of the sequence when the
rotation wrapped to index 0. -/
theorem C6_rotation {cfg : Config} {st st' : LoopState} {obs : ℚ × ℚ}
    (hr : ¬ (obs.1 / obs.2 ≤ APPROACH_THRESHOLD ^ 2))
    (htr : st.tracking = true) (hbuf : st.buffer - 1 ≤ 0)
    (h : trackStep cfg st obs = .ok st') :
    st'.target_idx = (st.target_idx + 1) % cfg.motion_nodes.length ∧
    (st'.target_idx ≠ 0 →
      cfg.motion_nodes.get? (st'.target_idx - 1) = some st'.previous_node) ∧
    (st'.target_idx = 0 → cfg.motion_nodes.getLast? = some st'.previous_node) := by
  unfold trackStep at h
  rw [if_neg hr] at h
  rw [if_pos ⟨htr, hbuf⟩] at h
  cases hd : departure cfg { st with buffer := st.buffer - 1 } with
  | error e => rw [hd] at h; simp at h
  | ok st1 =>
    rw [hd] at h
    injection h with h
    subst h
    obtain ⟨r1, r3, r4⟩ := departure_rotation hd
    have e_ti : st1.target_idx = (st.target_idx + 1) % cfg.motion_nodes.length := r1
    have r3' : pyGet cfg.motion_nodes
        ((((st.target_idx + 1) % cfg.motion_nodes.length : ℕ) : ℤ) - 1) =
        .ok st1.previous_node := r3
    refine ⟨e_ti, ?_, ?_⟩
    · intro hne
      show cfg.motion_nodes.get? (st1.target_idx - 1) = some st1.previous_node
      rw [e_ti] at hne ⊢
      have hpos : 0 < (st.target_idx + 1) % cfg.motion_nodes.length := by omega
      have hcast : (((st.target_idx + 1) % cfg.motion_nodes.length : ℕ) : ℤ) - 1 =
          (((st.target_idx + 1) % cfg.motion_nodes.length - 1 : ℕ) : ℤ) := by omega
      rw [hcast] at r3'
      have hg := pyGet_ok_get? (by omega) r3'
      simpa using hg
    · intro hzero
      show cfg.motion_nodes.getLast? = some st1.previous_node
      rw [e_ti] at hzero
      rw [hzero] at r3'
      have hneg : (((0 : ℕ) : ℤ)) - 1 = (-1 : ℤ) := by decide
      rw [hneg] at r3'
      exact pyGet_neg_one_getLast? r3'

/-- C6 (witness): the rotation at the concrete first-node departure from
`c3St`: the new target index is `1 = (0 + 1) % 2` and the new previous
node is the node at declared index `0`. -/
theorem C6_witness :
    c3Result.target_idx = (c3St.target_idx + 1) % demoCfg.motion_nodes.length ∧
    (c3Result.target_idx ≠ 0 →
      demoCfg.motion_nodes.get? (c3Result.target_idx - 1) =
        some c3Result.previous_node) ∧
    (c3Result.target_idx = 0 →
      demoCfg.motion_nodes.getLast? = some c3Result.previous_node) := by
  have hrun : trackStep demoCfg c3St ((101 : ℚ), (1 : ℚ)) = .ok c3Result := by
    norm_num +decide [trackStep, departure, rotateState, pyGet, pyMin, pairLt,
      APPROACH_THRESHOLD, demoCfg, c3St, c3Result, List.get?]
  exact C6_rotation (by norm_num [APPROACH_THRESHOLD]) rfl (by norm_num [c3St]) hrun

/-- C7: a valid frame whose hand position coincides with the previous-node
position has a zero previous distance; the ratio computation divides by
zero and no handler intercepts the error, so the run aborts at that frame
no matter how many rows follow. -/
theorem C7_zero_previous_distance {cfg : Config} {st : LoopState}
    {row : List ℚ} {rest : List (List ℚ)} {hoff toff poff : ℕ} {hpt tpt : Point}
    (hh : dictGet cfg.marker_names cfg.hand_marker = .ok hoff)
    (hhp : rowPoint row (hoff * 3) = .ok hpt)
    (hhz : hpt ≠ zeroPoint)
    (ht : dictGet cfg.marker_names st.target_node = .ok toff)
    (htp : rowPoint row (toff * 3) = .ok tpt)
    (htz : tpt ≠ zeroPoint)
    (hp : dictGet cfg.marker_names st.previous_node = .ok poff)
    (hpp : rowPoint row (poff * 3) = .ok hpt) :
    runRows cfg st (row :: rest) = .error "ZeroDivisionError" := by
  have hobs : frameObs cfg st row =
      .ok (some (distSq hpt tpt, distSq hpt hpt)) := by
    simp [frameObs, hh, hhp, hhz, ht, htp, htz, hp, hpp]
  have hdz : distSq hpt hpt = 0 := by simp [distSq]
  have hstep : stepFrame cfg st row = .error "ZeroDivisionError" := by
    simp [stepFrame, hobs, hdz]
  unfold runRows
  rw [hstep]

/-- C7 (witness): with the hand exactly at the previous node `B`, the run
aborts with the division-by-zero error on that row. -/
theorem C7_witness :
    runRows demoCfg demoSt0 [rowHandAtB] = .error "ZeroDivisionError" := by
  have hh : dictGet demoCfg.marker_names demoCfg.hand_marker = .ok 0 := by
    norm_num +decide [dictGet, demoCfg, List.find?]
  have hhp : rowPoint rowHandAtB (0 * 3) = .ok ⟨20, 0, 0⟩ := by
    norm_num [rowPoint, rowHandAtB, List.get?]
  have ht : dictGet demoCfg.marker_names demoSt0.target_node = .ok 1 := by
    norm_num +decide [dictGet, demoCfg, demoSt0, List.find?]
  have htp : rowPoint rowHandAtB (1 * 3) = .ok ⟨10, 0, 0⟩ := by
    norm_num [rowPoint, rowHandAtB, List.get?]
  have hp : dictGet demoCfg.marker_names demoSt0.previous_node = .ok 2 := by
    norm_num +decide [dictGet, demoCfg, demoSt0, List.find?]
  have hpp : rowPoint rowHandAtB (2 * 3) = .ok ⟨20, 0, 0⟩ := by
    norm_num [rowPoint, rowHandAtB, List.get?]
  exact C7_zero_previous_distance hh hhp (by decide) ht htp (by decide) hp hpp

/-- C4: every event emitted by a completed run has `start_frame ≤ end_frame`
and its duration is `round((end_frame - start_frame) / frequency, 2)`. -/
theorem C4_events_wellformed {cfg : Config} {st0 st : LoopState}
    {rows : List (List ℚ)}
    (h0 : initState cfg = .ok st0) (h : runRows cfg st0 rows = .ok st) :
    ∀ ev ∈ st.events, ev.start_frame ≤ ev.end_frame ∧
      ev.duration = pyRound2 (((ev.end_frame : ℚ) - (ev.start_frame : ℚ)) /
        (cfg.frequency : ℚ)) := by
  have hInv := runRows_inv (initState_inv h0) h
  obtain ⟨_, _, _, _, _, _, i7, _, _⟩ := hInv
  intro ev hev
  exact i7 ev hev

/-- C4 (witness): the event of the fourteen-row demo run: frames 1 to 8 at
frequency 1 give the rounded duration 7. -/
theorem C4_witness :
    demoEvent.start_frame ≤ demoEvent.end_frame ∧
    demoEvent.duration =
      pyRound2 (((demoEvent.end_frame : ℚ) - (demoEvent.start_frame : ℚ)) /
        (demoCfg.frequency : ℚ)) :=
  C4_events_wellformed demoInit_eq demoRun_eq demoEvent (by simp [demoFinal])

/-- C8: after initialization and any run prefix, `event_num - 1` equals the
number of events emitted so far, and the emitted events carry the dense
indices `1, 2, 3, …` in emission order. -/
theorem C8_dense_numbering {cfg : Config} {st0 st : LoopState}
    {rows : List (List ℚ)}
    (h0 : initState cfg = .ok st0) (h : runRows cfg st0 rows = .ok st) :
    st.event_num - 1 = st.events.length ∧
    st.events.map Event.num =
      (List.range st.events.length).map (fun i => Int.ofNat i + 1) := by
  have hInv := runRows_inv (initState_inv h0) h
  obtain ⟨_, _, _, _, _, i6, _, i8, _⟩ := hInv
  exact ⟨by omega, i8⟩

/-- C8 (witness): the demo run emits one event, numbered 1, with
`event_num = 2`. -/
theorem C8_witness :
    demoFinal.event_num - 1 = demoFinal.events.length ∧
    demoFinal.events.map Event.num =
      (List.range demoFinal.events.length).map (fun i => Int.ofNat i + 1) :=
  C8_dense_numbering demoInit_eq demoRun_eq

/-- C9: after initialization, every completed run prefix has the tracking
flag off exactly when the accumulator is empty, and no run ever aborts with
the `ValueError` of `min` on an empty list: at every confirmed departure
the minimum is taken over a nonempty accumulator. -/
theorem C9_tracking_iff_store {cfg : Config} {st0 : LoopState}
    {rows : List (List ℚ)}
    (h0 : initState cfg = .ok st0) :
    (∀ st, runRows cfg st0 rows = .ok st →
       (st.tracking = false ↔ st.frame_store = [])) ∧
    (∀ e, runRows cfg st0 rows = .error e → e ≠ "ValueError") := by
  have hInv0 := initState_inv h0
  constructor
  · intro st h
    obtain ⟨i1, _⟩ := runRows_inv hInv0 h
    exact i1
  · intro e h
    exact runRows_error hInv0 h

/-- C9 (witness): the demo run ends with tracking off and an empty
accumulator. -/
theorem C9_witness :
    demoFinal.tracking = false ↔ demoFinal.frame_store = [] :=
  (C9_tracking_iff_store demoInit_eq).1 demoFinal demoRun_eq

/-- C10: the end-of-run warning divides `bad_frames` by the advisory header
frame count, not by the number of rows actually read: with a nonzero frame
count it reports `round((bad_frames / frame_count) * 100, 2)`, and when the
header declared no (or a zero) `NO_OF_FRAMES` value, a run that skipped at
least one frame makes the summary step fail with `ZeroDivisionError` even
though the frame loop itself completed. -/
theorem C10_summary_zero_division :
    (∀ (bad fc : ℤ), 0 < bad → fc ≠ 0 →
       skippedWarning bad fc =
         .ok (some (pyRound2 (((bad : ℚ) / (fc : ℚ)) * 100)))) ∧
    (∀ (hrows : List (List String)) (hs : HeaderState)
       (hrest : List (List String)) (cfg : Config) (st0 st : LoopState)
       (rows : List (List ℚ)),
       (∀ r ∈ hrows, r.head? ≠ some "NO_OF_FRAMES") →
       parseHeaderRows hrows initHeader = .ok (hs, hrest) →
       initState cfg = .ok st0 →
       runRows cfg st0 rows = .ok st →
       0 < st.bad_frames →
       skippedWarning st.bad_frames hs.frame_count =
         .error "ZeroDivisionError") := by
  constructor
  · intro bad fc hbad hfc
    unfold skippedWarning
    rw [if_pos hbad, if_neg hfc]
  · intro hrows hs hrest cfg st0 st rows hno hparse _ _ hbad
    have hfc : hs.frame_count = 0 := parseHeader_no_frames_tag hno hparse
    unfold skippedWarning
    rw [if_pos hbad, if_pos hfc]

/-- C10 (witness): the two-row run that skipped one frame, paired with a
header containing no `NO_OF_FRAMES` row, makes the summary fail. -/
theorem C10_witness :
    skippedWarning badRunFinal.bad_frames initHeader.frame_count =
      .error "ZeroDivisionError" :=
  C10_summary_zero_division.2 [] initHeader [] demoCfg demoSt0 badRunFinal
    [rowBadHand, rowNearA] (by simp) rfl demoInit_eq badRun_eq
    (by norm_num [badRunFinal])
